import Mathlib

/-!
Verification of the banner decoding pipeline of `camtrap_banner_decoder.py`.

The program is embedded shallowly: Python strings are lists of characters,
the external collaborators (OpenCV decoding, tesseract recognition) are
parameters of the embedded functions, and `sys.exit()` is modelled by an
explicit `RunResult.exited` outcome.  Regular-expression searches of the
source are compiled by hand into scanning functions over character lists;
the fixed patterns involved (`\d{2}-\d{2}-\d{4}`, `\d{2}:\d{2}:\d{2}`,
` \d+F `, ` \d+C `) admit no backtracking ambiguity, so leftmost search of
the literal pattern is an exact model.  `\d` is modelled as the ASCII digits
`0`-`9` (Python also accepts other Unicode digits; none of the properties
checked here involve them).
-/

namespace CamTrap

/-- A Python string, as a list of characters. -/
abbrev Str := List Char

/-! ### Python string primitives used by the source -/

/-- Python `s.split(sep)` for a one-character separator: keeps empty
pieces, and the result is never the empty list (`"".split(" ") == [""]`). -/
def splitOnChar (c : Char) : Str → List Str
  | [] => [[]]
  | x :: rest =>
    if x = c then [] :: splitOnChar c rest
    else
      match splitOnChar c rest with
      | t :: ts => (x :: t) :: ts
      | [] => [[x]]

/-- Fuelled worker for `replaceAll`.  Each step consumes at least one
character of the subject, so fuel equal to the length of the subject is
always enough; the fuel only serves to make the recursion structural. -/
def replaceAllF (pat rep : Str) : Nat → Str → Str
  | _, [] => []
  | 0, s => s
  | fuel + 1, x :: rest =>
    if pat ≠ [] ∧ pat.isPrefixOf (x :: rest) then
      rep ++ replaceAllF pat rep fuel ((x :: rest).drop pat.length)
    else
      x :: replaceAllF pat rep fuel rest

/-- Python `s.replace(pat, rep)`: replace every non-overlapping occurrence
of `pat`, scanning left to right. -/
def replaceAll (pat rep s : Str) : Str := replaceAllF pat rep s.length s

/-- One pass of Python `s.replace("  ", " ")`. -/
def replaceDD : Str → Str
  | [] => []
  | [c] => [c]
  | c1 :: c2 :: rest =>
    if c1 = ' ' ∧ c2 = ' ' then ' ' :: replaceDD rest
    else c1 :: replaceDD (c2 :: rest)

/-- Python `"  " in s`: the string contains two consecutive spaces. -/
def hasDD : Str → Bool
  | c1 :: c2 :: rest => (c1 == ' ' && c2 == ' ') || hasDD (c2 :: rest)
  | _ => false

/-- Fuelled worker for the `while "  " in text2` loop of the source
(lines 220-221).  Each iteration strictly shrinks the string, so fuel
equal to the length of the string always reaches the fixed point. -/
def collapseF : Nat → Str → Str
  | 0, s => s
  | fuel + 1, s => if hasDD s then collapseF fuel (replaceDD s) else s

/-- The space-collapse loop of the source: replace double spaces until
none remain. -/
def collapseSpaces (s : Str) : Str := collapseF s.length s

/-- The whitespace characters stripped by Python `str.strip()`. -/
def isSpaceChar (c : Char) : Bool :=
  c == ' ' || c == '\t' || c == '\n' || c == '\r' || c == '\x0b' || c == '\x0c'

/-- Python `s.strip()`. -/
def pyStrip (s : Str) : Str :=
  ((s.dropWhile isSpaceChar).reverse.dropWhile isSpaceChar).reverse

/-- The characters after the last occurrence of `c` (the whole string when
`c` does not occur). -/
def afterLast (c : Char) (s : Str) : Str :=
  (s.reverse.takeWhile (· != c)).reverse

/-- The characters up to and including the last occurrence of `c` (empty
when `c` does not occur). -/
def uptoLast (c : Char) (s : Str) : Str :=
  (s.reverse.dropWhile (· != c)).reverse

/-- `pathlib.PurePath(name).suffix` for a file name (the final path
component): the part of the name from its last dot, unless that dot is the
first or the last character of the name. -/
def name_suffix (name : Str) : Str :=
  if '.' ∈ name then
    if 1 < (uptoLast '.' name).length ∧ afterLast '.' name ≠ [] then
      '.' :: afterLast '.' name
    else []
  else []

/-- `pathlib.Path(p).with_suffix(suf)`: drop the suffix of the final
component and append `suf`. -/
def path_with_suffix (p suf : Str) : Str :=
  let name := afterLast '/' p
  let sfx := name_suffix name
  uptoLast '/' p ++ name.take (name.length - sfx.length) ++ suf

/-- `Path(p).suffix.lower()` as used for the extension dispatch. -/
def suffix_lower (p : Str) : Str :=
  (name_suffix (afterLast '/' p)).map Char.toLower

/-! ### Hand-compiled regular expression searches (lines 175, 184, 194, 202) -/

/-- Match `\d{2}-\d{2}-\d{4}` at the start of the string, returning the
matched ten characters. -/
def matchDateAt : Str → Option Str
  | a :: b :: '-' :: c :: d :: '-' :: e :: f :: g :: h :: _ =>
    if a.isDigit ∧ b.isDigit ∧ c.isDigit ∧ d.isDigit ∧
       e.isDigit ∧ f.isDigit ∧ g.isDigit ∧ h.isDigit then
      some [a, b, '-', c, d, '-', e, f, g, h]
    else none
  | _ => none

/-- Match `\d{2}:\d{2}:\d{2}` at the start of the string. -/
def matchTimeAt : Str → Option Str
  | a :: b :: ':' :: c :: d :: ':' :: e :: f :: _ =>
    if a.isDigit ∧ b.isDigit ∧ c.isDigit ∧ d.isDigit ∧ e.isDigit ∧ f.isDigit then
      some [a, b, ':', c, d, ':', e, f]
    else none
  | _ => none

/-- Match ` \d+F ` (resp. ` \d+C `) at the start of the string.  The `\d+`
is greedy and must be followed directly by the unit letter, so the only
possible match takes the whole digit run. -/
def matchTempAt (unit : Char) : Str → Option Str
  | ' ' :: rest =>
    let ds := rest.takeWhile Char.isDigit
    if ds = [] then none
    else
      match rest.drop ds.length with
      | u :: ' ' :: _ => if u = unit then some (' ' :: (ds ++ [unit, ' '])) else none
      | _ => none
  | _ => none

/-- `re.search`: try the matcher at each position, leftmost match wins. -/
def searchFirst (m : Str → Option Str) : Str → Option Str
  | [] => m []
  | x :: rest =>
    match m (x :: rest) with
    | some r => some r
    | none => searchFirst m rest

def findDate (s : Str) : Option Str := searchFirst matchDateAt s

def findTime (s : Str) : Option Str := searchFirst matchTimeAt s

def findTemp (unit : Char) (s : Str) : Option Str := searchFirst (matchTempAt unit) s

/-! ### The banner field parser (`extract_date_time`, lines 168-247) -/

/-- The structured record built from one banner line (the dictionary
returned at lines 236-243 of the source). -/
structure BannerRecord where
  text : Str
  cam_id : Option Str
  date : Str
  time : Str
  temperature_c : Option Str
  temperature_f : Option Str
deriving DecidableEq, Repr

/-- Outcome of the parsing stage: either a record, or the `{"error": ""}`
dictionary, which carries no fields. -/
inductive ParseResult
  | record (r : BannerRecord)
  | noBanner
deriving DecidableEq, Repr

/-- Line 178: reorder the matched `MM-DD-YYYY` groups into `YYYY-MM-DD`. -/
def reorderDate (raw : Str) : Str :=
  let p := splitOnChar '-' raw
  (p.getD 2 []) ++ ['-'] ++ (p.getD 0 []) ++ ['-'] ++ (p.getD 1 [])

/-- Lines 210-218: remove the matched date, time, Celsius and Fahrenheit
substrings (in that order) from the line.  The temperature removals use the
stripped forms, exactly as the source does. -/
def residual_text (text : Str) : Str :=
  let t1 := match findDate text with
            | some raw_date => replaceAll raw_date [] text
            | none => text
  let t2 := match findTime text with
            | some raw_time => replaceAll raw_time [] t1
            | none => t1
  let t3 := match findTemp 'C' text with
            | some m => replaceAll (pyStrip m) [] t2
            | none => t2
  match findTemp 'F' text with
  | some m => replaceAll (pyStrip m) [] t3
  | none => t3

/-- Insert into a list kept sorted by decreasing length, after all entries
of length at least that of the inserted string. -/
def insertDesc (x : Str) : List Str → List Str
  | [] => [x]
  | y :: ys => if y.length < x.length then x :: y :: ys else y :: insertDesc x ys

/-- Python `sorted(l, key=len, reverse=True)`: stable sort by decreasing
length (entries of equal length keep their original order). -/
def sortedByLenDesc (l : List Str) : List Str :=
  l.foldl (fun acc x => insertDesc x acc) []

/-- Modelled from the spec: the camera id is the longest token, ties broken
by first-occurrence order.  Used as the reference function for the
camera-id refinement claim. -/
def spec_longest_first : List Str → Option Str
  | [] => none
  | t :: ts => some (ts.foldl (fun best x => if best.length < x.length then x else best) t)

/-- The record built at lines 236-243 once a date and a time matched:
date reordered (line 178), colons removed from the time (line 187),
temperatures found and stripped (lines 194-205), and the camera id taken
as `sorted(text2.split(" "), key=len, reverse=True)[0]` (line 229) where
`text2` is the collapsed residual.  `split` never yields an empty list, so
the `except` of lines 228-231 that would leave `cam_id = None` is dead and
`head?` is always `some`. -/
def build_record (text raw_date raw_time : Str) : BannerRecord :=
  ⟨text,
   (sortedByLenDesc (splitOnChar ' ' (collapseSpaces (residual_text text)))).head?,
   reorderDate raw_date,
   replaceAll [':'] [] raw_time,
   (findTemp 'C' text).map pyStrip,
   (findTemp 'F' text).map pyStrip⟩

/-- One iteration of the `for text in banner_text.split("\n")` loop
(lines 168-245): a record is produced exactly when the line contains both
a date and a time match; otherwise the line is rejected (`continue`).
At the point the record is built, `flag_info` is necessarily `True`
(a date matched), so the `else: return {"error": ""}` branch at line 245
is unreachable and has no counterpart here. -/
def parse_line (text : Str) : Option BannerRecord :=
  match findDate text with
  | none => none
  | some raw_date =>
    match findTime text with
    | none => none
    | some raw_time => some (build_record text raw_date raw_time)

/-- Run the per-line parser over the lines, first record wins. -/
def firstRecord : List Str → ParseResult
  | [] => ParseResult.noBanner
  | l :: ls =>
    match parse_line l with
    | some r => ParseResult.record r
    | none => firstRecord ls

/-- The text-to-record part of `extract_date_time`: `None` upstream text
(line 165) and exhaustion of the lines (line 247) both give the
`{"error": ""}` outcome. -/
def parse_banner : Option Str → ParseResult
  | none => ParseResult.noBanner
  | some s => firstRecord (splitOnChar '\n' s)

/-! ### Frames, region extraction and sampling (lines 53-149)

Pixel contents play no role in the properties below, so a frame is
modelled by its dimensions; the recognizer and the decoders are
parameters.  `cv2.resize` is exact on the dimensions; the source computes
`int(new_width * aspect_ratio)` with float arithmetic and
`int(frame_height * 0.15)` with the float literal `0.15`, modelled here by
the exact rationals `height * 1280 / width` and `height * 15 / 100`
(integer floor division); no claim depends on the rounded values
themselves. -/

/-- A decoded frame, by its dimensions (`frame.shape` gives
`(height, width, channels)`). -/
structure Frame where
  height : Nat
  width : Nat
deriving DecidableEq, Repr

/-- A rectangular sub-region of a frame: rows `[rowStart, rowEnd)`, columns
`[colStart, colEnd)`. -/
structure Region where
  rowStart : Nat
  rowEnd : Nat
  colStart : Nat
  colEnd : Nat
deriving DecidableEq, Repr

/-- Lines 65-70: frames wider than 2592 px are resized to width 1280,
height scaled by the same aspect ratio; other frames are untouched. -/
def working_frame (f : Frame) : Frame :=
  if 2592 < f.width then ⟨1280 * f.height / f.width, 1280⟩ else f

/-- Line 76: `int(frame_height * roi_height_fraction)` at the default
fraction 0.15. -/
def roi_height (f : Frame) : Nat := f.height * 15 / 100

/-- Line 77: the bottom strip `frame[h - roi_h : h, 0 : w]`. -/
def banner_region (f : Frame) : Region :=
  ⟨f.height - roi_height f, f.height, 0, f.width⟩

/-- The external recognizer (`pytesseract.image_to_string`): given the
grayscale banner region of a frame it returns text, or `none` when it
raises. -/
abbrev Ocr := Frame → Region → Option Str

/-- Outcome of a fragment of the program that may call `sys.exit()`. -/
inductive RunResult (α : Type)
  | exited
  | ok (value : α)
deriving DecidableEq, Repr

def RunResult.map {α β : Type} (f : α → β) : RunResult α → RunResult β
  | RunResult.exited => RunResult.exited
  | RunResult.ok a => RunResult.ok (f a)

/-- Lines 88-92: the `try`/`except` around the recognizer converts a raise
into `print("Tesseract error"); sys.exit()`. -/
def recognize (ocr : Ocr) (f : Frame) : RunResult Str :=
  match ocr f (banner_region f) with
  | none => RunResult.exited
  | some t => RunResult.ok t

def jpeg_ext : Str := ".jpeg".data

def load_error_message : Str :=
  "Error: Unable to load the image. Check the file path.".data

/-- `banner_text_from_frame` (lines 53-97): resize if oversized, crop the
bottom strip, write the colour (pre-grayscale) crop to
`Path(file_path).with_suffix(".jpeg")` whenever `file_path` is truthy
(line 81-82), then recognize.  The first component records the write
(target path and region written), the second the recognizer outcome. -/
def banner_text_from_frame (ocr : Ocr) (f : Frame) (file_path : Str) :
    Option (Str × Region) × RunResult Str :=
  ((if file_path ≠ [] then
      some (path_with_suffix file_path jpeg_ext, banner_region (working_frame f))
    else none),
   recognize ocr (working_frame f))

/-- The `while True` read loop of `extract_banner_text_from_video`
(lines 119-131), with the decoded frame stream as a list. -/
def video_go (ocr : Ocr) (frame_interval : Nat) : List Frame → Nat → RunResult (Option Str)
  | [], _ => RunResult.ok none
  | f :: rest, count =>
    if count % frame_interval = 0 then
      match (banner_text_from_frame ocr f []).2 with
      | RunResult.exited => RunResult.exited
      | RunResult.ok t => RunResult.ok (some t)
    else video_go ocr frame_interval rest (count + 1)

/-- `extract_banner_text_from_video` (lines 100-136): sample the frame
stream at the given interval; no frame passed `file_path`, so no write
occurs. -/
def extract_banner_text_from_video (ocr : Ocr) (frames : List Frame)
    (frame_interval : Nat) : RunResult (Option Str) :=
  video_go ocr frame_interval frames 0

/-- Modelled from the spec: a sampler that reads exactly one frame and has
no interval parameter.  Reference function for the video-sampling
refinement claim. -/
def single_frame_sampler (ocr : Ocr) (frames : List Frame) : RunResult (Option Str) :=
  match frames with
  | [] => RunResult.ok none
  | f :: _ =>
    match (banner_text_from_frame ocr f []).2 with
    | RunResult.exited => RunResult.exited
    | RunResult.ok t => RunResult.ok (some t)

/-- `extract_banner_text_from_image` (lines 139-149): `cv2.imread` result
is the `frame` parameter; when it is `None` the function returns the fixed
error message string as its result (line 145), with no write and no
recognizer call. -/
def extract_banner_text_from_image (ocr : Ocr) (image_path : Str)
    (frame : Option Frame) : Option (Str × Region) × RunResult Str :=
  match frame with
  | none => (none, RunResult.ok load_error_message)
  | some f => banner_text_from_frame ocr f image_path

/-- `extract_date_time` (lines 152-247): dispatch on the lower-cased
suffix, then parse whatever the sampling stage produced.  `videoFrames`
and `stillFrame` stand for what `cv2.VideoCapture` and `cv2.imread` would
deliver for `path_file`. -/
def extract_date_time (ocr : Ocr) (videoFrames : List Frame)
    (stillFrame : Option Frame) (path_file : Str) :
    Option (Str × Region) × RunResult ParseResult :=
  if suffix_lower path_file = ".avi".data ∨ suffix_lower path_file = ".mp4".data then
    (none, RunResult.map parse_banner (extract_banner_text_from_video ocr videoFrames 30))
  else if suffix_lower path_file = ".jpg".data ∨ suffix_lower path_file = ".jpeg".data then
    ((extract_banner_text_from_image ocr path_file stillFrame).1,
     RunResult.map parse_banner
       (RunResult.map some (extract_banner_text_from_image ocr path_file stillFrame).2))
  else (none, RunResult.map parse_banner (RunResult.ok none))

/-! ### The batch loop of `main` (lines 250-308) -/

/-- The command line flags that reach the per-file logic.  `debug` only
adds prints in the source and has no effect on any modelled value. -/
structure Args where
  cam_id : Str
  rename : Bool
  debug : Bool
deriving DecidableEq, Repr

/-- Lines 291-295: the default camera id is substituted only when the
extracted one is `None`. -/
def resolve_cam_id (fallback : Str) (c : Option Str) : Str :=
  match c with
  | none => if fallback ≠ [] then fallback else "CAM-ID".data
  | some c => c

/-- The per-file report printed by `main`. -/
inductive Report
  | notFound
  | alreadyRenamed
  | dryRun (oldName newName : Str)
  | renamed (oldName newName : Str)
  | silent
deriving DecidableEq, Repr

/-- Line 297: `f"{date}_{time}_{cam_id}_{file_path.name}"`. -/
def new_name (args : Args) (path : Str) (r : BannerRecord) : Str :=
  r.date ++ ['_'] ++ r.time ++ ['_'] ++
    resolve_cam_id args.cam_id r.cam_id ++ ['_'] ++ afterLast '/' path

/-- Line 297: the target path, in the same directory. -/
def new_file_path (args : Args) (path : Str) (r : BannerRecord) : Str :=
  uptoLast '/' path ++ new_name args path r

/-- Lines 290-307: the rename-planning block run once a record was parsed.
First component: the rename performed (target path), second: the report.
The guard `if data["date"] and data["time"]` is Python truthiness on the
two strings; its false branch prints nothing (`Report.silent`). -/
def plan_rename (args : Args) (path : Str) (r : BannerRecord) : Option Str × Report :=
  if r.date ≠ [] ∧ r.time ≠ [] then
    if (afterLast '/' path).count '-' = 2 then
      (none, Report.alreadyRenamed)
    else if args.rename then
      (some (new_file_path args path r),
       Report.renamed (afterLast '/' path) (new_name args path r))
    else
      (none, Report.dryRun (afterLast '/' path) (new_name args path r))
  else (none, Report.silent)

/-- What one file contributes: the banner-crop write (if any), the rename
performed (if any), and the report — or `RunResult.exited` when the run
was terminated while processing this file. -/
structure FileOutcome where
  write : Option (Str × Region)
  renameTo : Option Str
  report : RunResult Report
deriving DecidableEq, Repr

/-- One input file: its path together with what the external decoders
would produce for it. -/
structure MediaInput where
  path : Str
  videoFrames : List Frame
  stillFrame : Option Frame
deriving DecidableEq, Repr

/-- The body of the `for file_path in files` loop for one file
(lines 277-308). -/
def process_file (args : Args) (ocr : Ocr) (m : MediaInput) : FileOutcome :=
  let wr := (extract_date_time ocr m.videoFrames m.stillFrame m.path).1
  match (extract_date_time ocr m.videoFrames m.stillFrame m.path).2 with
  | RunResult.exited => ⟨wr, none, RunResult.exited⟩
  | RunResult.ok ParseResult.noBanner => ⟨wr, none, RunResult.ok Report.notFound⟩
  | RunResult.ok (ParseResult.record r) =>
    ⟨wr, (plan_rename args m.path r).1, RunResult.ok (plan_rename args m.path r).2⟩

/-- The batch loop: files are processed in order; `sys.exit()` inside a
file terminates the whole run, leaving the remaining files unprocessed. -/
def main_loop (args : Args) (ocr : Ocr) : List MediaInput → List FileOutcome
  | [] => []
  | m :: rest =>
    match (process_file args ocr m).report with
    | RunResult.exited => [process_file args ocr m]
    | RunResult.ok _ => process_file args ocr m :: main_loop args ocr rest

/-! ### Concrete data used by witnesses and counterexamples -/

/-- Defaults of the argument parser: no fallback id, no rename, no debug. -/
def args0 : Args := ⟨[], false, false⟩

/-- A recognizer that always succeeds with empty text. -/
def ocr_blank : Ocr := fun _ _ => some []

/-- A recognizer that raises on frames of width 7 and otherwise returns a
fixed parseable banner line. -/
def ocr_cex : Ocr := fun f _ =>
  if f.width = 7 then none else some ("@ CAM1 06-09-2023 13:41:51 x".data)

/-- A still image whose frame makes `ocr_cex` raise. -/
def file_a : MediaInput := ⟨"a.jpg".data, [], some ⟨5, 7⟩⟩

/-- A still image that `ocr_cex` recognizes normally. -/
def file_b : MediaInput := ⟨"b.jpg".data, [], some ⟨5, 8⟩⟩

/-- A record as parsed from the line `"@ A 06-09-2023 13:41:51 BB"`. -/
def record_w : BannerRecord :=
  ⟨"@ A 06-09-2023 13:41:51 BB".data, some ("BB".data),
   "2023-06-09".data, "134151".data, none, none⟩

/-- A record with a camera id, for exercising the rename planner. -/
def record_r : BannerRecord :=
  ⟨"x".data, some ("CAM7".data), "2023-06-09".data, "134151".data, none, none⟩

/-! ## Supporting lemmas -/

theorem replaceDD_length_le (s : Str) : (replaceDD s).length ≤ s.length := by
  induction s using replaceDD.induct with
  | case1 => simp [replaceDD]
  | case2 c => simp [replaceDD]
  | case3 c1 c2 rest h ih =>
    rw [replaceDD, if_pos h]
    simp only [List.length_cons]
    omega
  | case4 c1 c2 rest h ih =>
    rw [replaceDD, if_neg h]
    simp only [List.length_cons] at *
    omega

theorem replaceDD_length_lt (s : Str) (h : hasDD s = true) :
    (replaceDD s).length < s.length := by
  induction s using replaceDD.induct with
  | case1 => cases h
  | case2 c => cases h
  | case3 c1 c2 rest hc ih =>
    rw [replaceDD, if_pos hc]
    have := replaceDD_length_le rest
    simp only [List.length_cons]
    omega
  | case4 c1 c2 rest hc ih =>
    rw [replaceDD, if_neg hc]
    have hd : hasDD (c2 :: rest) = true := by
      rw [hasDD] at h
      rcases Bool.or_eq_true_iff.mp h with h1 | h1
      · rcases Bool.and_eq_true_iff.mp h1 with ⟨e1, e2⟩
        exact absurd ⟨eq_of_beq e1, eq_of_beq e2⟩ hc
      · exact h1
    have := ih hd
    simp only [List.length_cons] at *
    omega

theorem hasDD_collapseF : ∀ (fuel : Nat) (s : Str), s.length ≤ fuel →
    hasDD (collapseF fuel s) = false := by
  intro fuel
  induction fuel with
  | zero =>
    intro s hs
    have : s = [] := List.length_eq_zero.mp (Nat.le_zero.mp hs)
    subst this
    rfl
  | succ n ih =>
    intro s hs
    rw [collapseF]
    by_cases h : hasDD s
    · rw [if_pos h]
      exact ih _ (by have := replaceDD_length_lt s h; omega)
    · rw [if_neg h]
      exact Bool.not_eq_true _ ▸ eq_false_of_ne_true h

theorem collapseF_of_not_hasDD (fuel : Nat) (s : Str) (h : hasDD s = false) :
    collapseF fuel s = s := by
  cases fuel with
  | zero => rfl
  | succ n => rw [collapseF, if_neg (by rw [h]; exact Bool.false_ne_true)]

theorem parse_line_eq_none_of_missing (l : Str)
    (h : findDate l = none ∨ findTime l = none) : parse_line l = none := by
  unfold parse_line
  cases hd : findDate l with
  | none => rfl
  | some rd =>
    cases ht : findTime l with
    | none => rfl
    | some rt =>
      rcases h with h | h
      · rw [hd] at h; cases h
      · rw [ht] at h; cases h

theorem parse_line_some_has_date_time (l : Str) (r : BannerRecord)
    (h : parse_line l = some r) : findDate l ≠ none ∧ findTime l ≠ none := by
  unfold parse_line at h
  cases hd : findDate l with
  | none => rw [hd] at h; cases h
  | some rd =>
    cases ht : findTime l with
    | none => rw [hd, ht] at h; cases h
    | some rt =>
      exact ⟨Option.some_ne_none rd, Option.some_ne_none rt⟩

theorem parse_line_some_build (l : Str) (r : BannerRecord)
    (h : parse_line l = some r) :
    ∃ rd rt, findDate l = some rd ∧ findTime l = some rt ∧ r = build_record l rd rt := by
  unfold parse_line at h
  cases hd : findDate l with
  | none => rw [hd] at h; cases h
  | some rd =>
    cases ht : findTime l with
    | none => rw [hd, ht] at h; cases h
    | some rt =>
      rw [hd, ht] at h
      exact ⟨rd, rt, rfl, rfl, (Option.some.inj h).symm⟩

theorem firstRecord_eq_record :
    ∀ (ls : List Str) (r : BannerRecord), firstRecord ls = ParseResult.record r →
      ∃ l, l ∈ ls ∧ parse_line l = some r := by
  intro ls
  induction ls with
  | nil => intro r h; cases h
  | cons l ls ih =>
    intro r h
    unfold firstRecord at h
    cases hp : parse_line l with
    | some r2 =>
      rw [hp] at h
      refine ⟨l, List.mem_cons_self l ls, ?_⟩
      rw [hp, ParseResult.record.inj h]
    | none =>
      rw [hp] at h
      obtain ⟨l2, hm, hp2⟩ := ih r h
      exact ⟨l2, List.mem_cons_of_mem l hm, hp2⟩

theorem firstRecord_eq_noBanner :
    ∀ ls : List Str, (∀ l ∈ ls, parse_line l = none) →
      firstRecord ls = ParseResult.noBanner := by
  intro ls
  induction ls with
  | nil => intro _; rfl
  | cons l ls ih =>
    intro h
    unfold firstRecord
    rw [h l (List.mem_cons_self l ls)]
    exact ih (fun x hx => h x (List.mem_cons_of_mem l hx))

theorem insertDesc_head (x : Str) (acc : List Str) :
    (insertDesc x acc).head? =
      match acc.head? with
      | none => some x
      | some b => if b.length < x.length then some x else some b := by
  cases acc with
  | nil => rfl
  | cons y ys => by_cases h : y.length < x.length <;> simp [insertDesc, h]

theorem foldl_insertDesc_head :
    ∀ (l : List Str) (acc : List Str),
      (l.foldl (fun a x => insertDesc x a) acc).head? =
        l.foldl (fun b x =>
          match b with
          | none => some x
          | some b => if b.length < x.length then some x else some b) acc.head? := by
  intro l
  induction l with
  | nil => intro acc; rfl
  | cons x l ih =>
    intro acc
    simp only [List.foldl_cons]
    rw [ih (insertDesc x acc), insertDesc_head]

theorem foldl_step_some :
    ∀ (ts : List Str) (t : Str),
      ts.foldl (fun b x =>
          match b with
          | none => some x
          | some b => if b.length < x.length then some x else some b) (some t) =
        some (ts.foldl (fun best x => if best.length < x.length then x else best) t) := by
  intro ts
  induction ts with
  | nil => intro t; rfl
  | cons x ts ih =>
    intro t
    by_cases h : t.length < x.length <;> simp [List.foldl_cons, h, ih]

/-- The head of the stable length-descending sort is the first token of
maximal length. -/
theorem sortedByLenDesc_head (l : List Str) :
    (sortedByLenDesc l).head? = spec_longest_first l := by
  unfold sortedByLenDesc
  rw [foldl_insertDesc_head]
  cases l with
  | nil => rfl
  | cons t ts =>
    simp only [List.head?_nil, List.foldl_cons]
    rw [foldl_step_some]
    rfl

theorem uptoLast_append_afterLast (c : Char) (s : Str) :
    uptoLast c s ++ afterLast c s = s := by
  unfold uptoLast afterLast
  rw [← List.reverse_append, List.takeWhile_append_dropWhile, List.reverse_reverse]

theorem dropWhile_ne_of_mem :
    ∀ (s : Str) (c : Char), c ∈ s → ∃ t, s.dropWhile (· != c) = c :: t := by
  intro s c
  induction s with
  | nil => intro h; cases h
  | cons x xs ih =>
    intro h
    by_cases hx : x = c
    · subst hx
      exact ⟨xs, by simp [List.dropWhile_cons]⟩
    · have hm : c ∈ xs := by
        cases h with
        | head => exact absurd rfl hx
        | tail _ h2 => exact h2
      obtain ⟨t, ht⟩ := ih hm
      refine ⟨t, ?_⟩
      rw [List.dropWhile_cons, if_pos (by simp [bne_iff_ne, hx]), ht]

theorem uptoLast_ends (c : Char) (s : Str) (h : c ∈ s) :
    ∃ t, uptoLast c s = t ++ [c] := by
  obtain ⟨t, ht⟩ := dropWhile_ne_of_mem s.reverse c (List.mem_reverse.mpr h)
  refine ⟨t.reverse, ?_⟩
  unfold uptoLast
  rw [ht]
  simp

/-- Appending `.jpeg` after removing the suffix restores a path whose name
already has the suffix `.jpeg`. -/
theorem path_with_suffix_self (p : Str)
    (h : name_suffix (afterLast '/' p) = jpeg_ext) :
    path_with_suffix p jpeg_ext = p := by
  have hmem : '.' ∈ afterLast '/' p := by
    by_contra hm
    rw [name_suffix, if_neg hm] at h
    cases h
  have hsplit := uptoLast_append_afterLast '.' (afterLast '/' p)
  obtain ⟨t, ht⟩ := uptoLast_ends '.' (afterLast '/' p) hmem
  have htail : afterLast '.' (afterLast '/' p) = "jpeg".data := by
    rw [name_suffix, if_pos hmem] at h
    by_cases hc : 1 < (uptoLast '.' (afterLast '/' p)).length ∧
        afterLast '.' (afterLast '/' p) ≠ []
    · rw [if_pos hc] at h
      have h2 : '.' :: afterLast '.' (afterLast '/' p) = '.' :: "jpeg".data := h
      exact (List.cons.inj h2).2
    · rw [if_neg hc] at h
      cases h
  have hname : afterLast '/' p = t ++ '.' :: "jpeg".data := by
    rw [← hsplit, ht, htail, List.append_assoc]
    rfl
  have hlen : (afterLast '/' p).length - jpeg_ext.length = t.length := by
    rw [hname, List.length_append,
      show ('.' :: "jpeg".data).length = 5 from rfl,
      show (jpeg_ext : Str).length = 5 from rfl]
    omega
  show uptoLast '/' p ++
      (afterLast '/' p).take ((afterLast '/' p).length -
        (name_suffix (afterLast '/' p)).length) ++ jpeg_ext = p
  rw [h, hlen]
  conv_lhs => rw [hname]
  rw [List.take_left' rfl, List.append_assoc]
  rw [show (jpeg_ext : Str) = '.' :: "jpeg".data from rfl]
  rw [← hname]
  exact uptoLast_append_afterLast '/' p

theorem process_file_write (args : Args) (ocr : Ocr) (m : MediaInput) :
    (process_file args ocr m).write =
      (extract_date_time ocr m.videoFrames m.stillFrame m.path).1 := by
  unfold process_file
  split <;> rfl

theorem extract_still_write (ocr : Ocr) (vf : List Frame) (f : Frame) (p : Str)
    (hs : suffix_lower p = ".jpg".data ∨ suffix_lower p = ".jpeg".data)
    (hp : p ≠ []) :
    (extract_date_time ocr vf (some f) p).1 =
      some (path_with_suffix p jpeg_ext, banner_region (working_frame f)) := by
  have hav : ¬ (suffix_lower p = ".avi".data ∨ suffix_lower p = ".mp4".data) := by
    rcases hs with h | h <;> rw [h] <;> decide
  unfold extract_date_time
  rw [if_neg hav, if_pos hs]
  show (extract_banner_text_from_image ocr p (some f)).1 = _
  unfold extract_banner_text_from_image banner_text_from_frame
  show (if p ≠ [] then
      some (path_with_suffix p jpeg_ext, banner_region (working_frame f))
    else none) = _
  exact if_pos hp

/-! ## Claims -/

/-- C1: for every raw banner text, the parser returns a structured record
only if some line contains both a date token `\d{2}-\d{2}-\d{4}` and a
time token `\d{2}:\d{2}:\d{2}`; a line missing either (or both) is
rejected without constructing any partial record and the next line is
tried; if no line yields both, or the upstream text is `None`, the overall
result is the explicit NoBanner outcome, which carries no record
fields. -/
theorem c1_record_requires_date_and_time :
    parse_banner none = ParseResult.noBanner ∧
    (∀ l : Str, findDate l = none ∨ findTime l = none → parse_line l = none) ∧
    (∀ (l : Str) (ls : List Str), parse_line l = none →
      firstRecord (l :: ls) = firstRecord ls) ∧
    (∀ (s : Str) (r : BannerRecord), parse_banner (some s) = ParseResult.record r →
      ∃ l, l ∈ splitOnChar '\n' s ∧ findDate l ≠ none ∧ findTime l ≠ none) ∧
    (∀ s : Str, (∀ l ∈ splitOnChar '\n' s, findDate l = none ∨ findTime l = none) →
      parse_banner (some s) = ParseResult.noBanner) := by
  refine ⟨rfl, parse_line_eq_none_of_missing, ?_, ?_, ?_⟩
  · intro l ls h
    show (match parse_line l with
      | some r => ParseResult.record r
      | none => firstRecord ls) = firstRecord ls
    rw [h]
  · intro s r h
    obtain ⟨l, hm, hp⟩ := firstRecord_eq_record _ r h
    exact ⟨l, hm, parse_line_some_has_date_time l r hp⟩
  · intro s h
    exact firstRecord_eq_noBanner _ (fun l hl => parse_line_eq_none_of_missing l (h l hl))

/-- Witness for C1: a line with a time but no date parses to nothing, and
a text none of whose lines has both tokens gives NoBanner. -/
theorem c1_record_requires_date_and_time_witness :
    parse_line ("12:34:56 no date here".data) = none ∧
    parse_banner (some ("hello\n11-11".data)) = ParseResult.noBanner := by
  constructor
  · exact c1_record_requires_date_and_time.2.1 _ (Or.inl (by decide))
  · exact c1_record_requires_date_and_time.2.2.2.2 _ (by decide)

/-- C2: parsing the single sample line produces exactly the documented
record. -/
theorem c2_example_line_parses :
    parse_banner (some ("@ FOSA_01 73F 23C @ 06-09-2023 13:41:51".data)) =
      ParseResult.record
        ⟨"@ FOSA_01 73F 23C @ 06-09-2023 13:41:51".data, some ("FOSA_01".data),
          "2023-06-09".data, "134151".data, some ("23C".data), some ("73F".data)⟩ := by
  decide

/-- Counterexample for C3: on the line `"06-09-202313:41:51"` the residual
text after removal and collapse is empty, yet the camera id of the parsed
record is `some ""` — a present, empty-string value — not an absent one,
and the caller-side substitution (which fires only on `None`) leaves even
a supplied fallback unused. -/
theorem c3_counterexample_empty_remainder :
    collapseSpaces (residual_text ("06-09-202313:41:51".data)) = [] ∧
    parse_line ("06-09-202313:41:51".data) =
      some ⟨"06-09-202313:41:51".data, some [], "2023-06-09".data, "134151".data,
        none, none⟩ ∧
    resolve_cam_id ("FALLBACK".data) (some []) = [] := by
  refine ⟨?_, ?_, ?_⟩ <;> decide

/-- C3 (amended): camera-id recovery on a line that matched date and time
removes the matched date, time, Celsius and Fahrenheit substrings,
collapses space runs, splits on spaces and takes the longest token with
ties broken by first-occurrence order; when the resulting remainder is
empty the camera id is the empty string — a present value — so the caller
default substitution, which fires only on a missing (`None`) camera id,
does not apply. -/
theorem c3_camera_id_recovery :
    ∀ (line : Str) (r : BannerRecord), parse_line line = some r →
      r.cam_id = spec_longest_first (splitOnChar ' ' (collapseSpaces (residual_text line))) ∧
      (collapseSpaces (residual_text line) = [] → r.cam_id = some []) ∧
      (∀ fallback : Str, resolve_cam_id fallback (some []) = []) := by
  intro line r h
  obtain ⟨rd, rt, hd, ht, hr⟩ := parse_line_some_build line r h
  have hc : r.cam_id =
      (sortedByLenDesc (splitOnChar ' ' (collapseSpaces (residual_text line)))).head? := by
    rw [hr]; rfl
  rw [sortedByLenDesc_head] at hc
  refine ⟨hc, ?_, fun _ => rfl⟩
  intro he
  rw [hc, he]
  rfl

/-- Witness for C3 (amended): on a concrete parsed line the camera id is
the first longest residual token. -/
theorem c3_camera_id_recovery_witness :
    record_w.cam_id =
      spec_longest_first (splitOnChar ' '
        (collapseSpaces (residual_text ("@ A 06-09-2023 13:41:51 BB".data)))) :=
  (c3_camera_id_recovery ("@ A 06-09-2023 13:41:51 BB".data) record_w (by decide)).1

/-- C4 (bug evidence): when `cv2.imread` yields no pixel buffer, the image
stage returns the fixed error-message string as ordinary banner text, the
parser scans it, and the file ends in the plain NoBanner outcome — no
distinct image-load error exists anywhere in the pipeline. -/
theorem c4_load_failure_reported_as_noBanner :
    (extract_banner_text_from_image ocr_blank ("img.jpg".data) none).2 =
      RunResult.ok load_error_message ∧
    extract_date_time ocr_blank [] none ("img.jpg".data) =
      (none, RunResult.ok ParseResult.noBanner) := by
  refine ⟨?_, ?_⟩ <;> decide

/-- Counterexample for C5: with a recognizer that raises on the first file
of a two-file batch, the run terminates at that file and the second file —
which processes normally on its own — is never reached. -/
theorem c5_counterexample_exit_stops_batch :
    main_loop args0 ocr_cex [file_a, file_b] = [process_file args0 ocr_cex file_a] ∧
    (process_file args0 ocr_cex file_a).report = RunResult.exited ∧
    (process_file args0 ocr_cex file_b).report =
      RunResult.ok (Report.dryRun ("b.jpg".data) ("2023-06-09_134151_CAM1_b.jpg".data)) := by
  refine ⟨?_, ?_, ?_⟩ <;> decide

/-- C5 (amended): when the text recognizer raises while processing one
file, the program prints a message and exits immediately: the failure is
fatal for the entire run, and the remaining files of the batch are not
processed. -/
theorem c5_ocr_error_halts_run :
    ∀ (args : Args) (ocr : Ocr) (m : MediaInput) (rest : List MediaInput),
      (process_file args ocr m).report = RunResult.exited →
      main_loop args ocr (m :: rest) = [process_file args ocr m] := by
  intro args ocr m rest h
  unfold main_loop
  split
  · rfl
  · next val heq => rw [h] at heq; cases heq

/-- Witness for C5 (amended): the halt at a concrete raising file. -/
theorem c5_ocr_error_halts_run_witness :
    main_loop args0 ocr_cex [file_a, file_b] = [process_file args0 ocr_cex file_a] :=
  c5_ocr_error_halts_run args0 ocr_cex file_a [file_b] (by decide)

/-- C6: frames wider than 2592 px are resized to width 1280 (height scaled
by the same aspect ratio) before the bottom-fraction crop; frames at most
2592 px wide are not resized; in both cases the recognizer consumes the
crop of the working frame, and the crop is the bottom strip of the working
frame at full width. -/
theorem c6_resize_threshold :
    ∀ (f : Frame) (ocr : Ocr) (fp : Str),
      (2592 < f.width → working_frame f = ⟨1280 * f.height / f.width, 1280⟩) ∧
      (f.width ≤ 2592 → working_frame f = f) ∧
      (banner_text_from_frame ocr f fp).2 = recognize ocr (working_frame f) ∧
      banner_region (working_frame f) =
        ⟨(working_frame f).height - roi_height (working_frame f),
         (working_frame f).height, 0, (working_frame f).width⟩ := by
  intro f ocr fp
  refine ⟨fun h => ?_, fun h => ?_, rfl, rfl⟩
  · unfold working_frame
    rw [if_pos h]
  · unfold working_frame
    rw [if_neg (by omega)]

/-- Witness for C6: a wide frame is resized to width 1280, a frame within
the threshold is untouched. -/
theorem c6_resize_threshold_witness :
    working_frame ⟨1944, 2600⟩ = ⟨957, 1280⟩ ∧
    working_frame ⟨1080, 1920⟩ = ⟨1080, 1920⟩ := by
  constructor
  · rw [(c6_resize_threshold ⟨1944, 2600⟩ ocr_blank []).1 (by decide)]
    decide
  · exact (c6_resize_threshold ⟨1080, 1920⟩ ocr_blank []).2.1 (by decide)

/-- C7: once a record with date and time was parsed, a base name with
exactly two hyphens makes the planner skip the file as already renamed, in
both modes, regardless of the rest of the name; any other hyphen count
proceeds to the dry-run report or the executed rename. -/
theorem c7_two_hyphen_skip :
    ∀ (args : Args) (path : Str) (r : BannerRecord),
      r.date ≠ [] → r.time ≠ [] →
      ((afterLast '/' path).count '-' = 2 →
        plan_rename args path r = (none, Report.alreadyRenamed)) ∧
      ((afterLast '/' path).count '-' ≠ 2 →
        plan_rename args path r =
          if args.rename then
            (some (new_file_path args path r),
             Report.renamed (afterLast '/' path) (new_name args path r))
          else (none, Report.dryRun (afterLast '/' path) (new_name args path r))) := by
  intro args path r hd ht
  constructor
  · intro h2
    unfold plan_rename
    rw [if_pos ⟨hd, ht⟩, if_pos h2]
  · intro h2
    unfold plan_rename
    rw [if_pos ⟨hd, ht⟩, if_neg h2]

/-- Witness for C7: a two-hyphen name is skipped, a hyphenless name gets a
dry-run plan. -/
theorem c7_two_hyphen_skip_witness :
    plan_rename args0 ("a-b-c.jpg".data) record_r = (none, Report.alreadyRenamed) ∧
    plan_rename args0 ("x.jpg".data) record_r =
      (none, Report.dryRun ("x.jpg".data) (new_name args0 ("x.jpg".data) record_r)) := by
  constructor
  · exact (c7_two_hyphen_skip args0 ("a-b-c.jpg".data) record_r
      (by decide) (by decide)).1 (by decide)
  · have h := (c7_two_hyphen_skip args0 ("x.jpg".data) record_r
      (by decide) (by decide)).2 (by decide)
    rw [h]
    decide

/-- C8: the space-collapse transform used in camera-id recovery
(repeatedly replacing double spaces until none remain) is idempotent. -/
theorem c8_space_collapse_idempotent :
    ∀ s : Str, collapseSpaces (collapseSpaces s) = collapseSpaces s := by
  intro s
  have h := hasDD_collapseF s.length s (Nat.le_refl _)
  exact collapseF_of_not_hasDD _ _ h

/-- C9: for every positive sampling interval the video sampler inspects
only the first decoded frame (the counter starts at 0, a multiple of every
interval), so it is equivalent to a sampler that reads exactly one frame
and has no interval parameter; with no decodable frame the absent-text
result is returned. -/
theorem c9_video_samples_only_first_frame :
    ∀ (ocr : Ocr) (frames : List Frame) (frame_interval : Nat),
      0 < frame_interval →
      extract_banner_text_from_video ocr frames frame_interval =
        single_frame_sampler ocr frames := by
  intro ocr frames n h
  cases frames with
  | nil => rfl
  | cons f rest =>
    unfold extract_banner_text_from_video video_go single_frame_sampler
    rw [if_pos (Nat.zero_mod n)]

/-- Witness for C9: at the default interval 30 on a one-frame stream. -/
theorem c9_video_samples_only_first_frame_witness :
    0 < 30 ∧
      extract_banner_text_from_video ocr_blank [⟨10, 20⟩] 30 =
        single_frame_sampler ocr_blank [⟨10, 20⟩] :=
  ⟨by decide, c9_video_samples_only_first_frame ocr_blank [⟨10, 20⟩] 30 (by decide)⟩

/-- C10: processing a still image writes the colour banner crop of the
working frame to the original path with its suffix replaced by `.jpeg`,
whatever the mode flags are and whatever the recognizer and planner then
do; and when the suffix already is `.jpeg` the write targets the source
path itself. -/
theorem c10_still_image_always_writes_crop :
    ∀ (args : Args) (ocr : Ocr) (m : MediaInput) (f : Frame),
      m.stillFrame = some f →
      (suffix_lower m.path = ".jpg".data ∨ suffix_lower m.path = ".jpeg".data) →
      m.path ≠ [] →
      (process_file args ocr m).write =
        some (path_with_suffix m.path jpeg_ext, banner_region (working_frame f)) ∧
      (name_suffix (afterLast '/' m.path) = jpeg_ext →
        path_with_suffix m.path jpeg_ext = m.path) := by
  intro args ocr m f hf hs hp
  constructor
  · rw [process_file_write, hf]
    exact extract_still_write ocr m.videoFrames f m.path hs hp
  · intro h
    exact path_with_suffix_self m.path h

/-- Witness for C10: a still image named `IMG.jpeg` has its own banner
crop written over itself. -/
theorem c10_still_image_always_writes_crop_witness :
    (process_file args0 ocr_blank ⟨"IMG.jpeg".data, [], some ⟨100, 200⟩⟩).write =
      some (path_with_suffix ("IMG.jpeg".data) jpeg_ext,
            banner_region (working_frame ⟨100, 200⟩)) ∧
    path_with_suffix ("IMG.jpeg".data) jpeg_ext = "IMG.jpeg".data := by
  have h := c10_still_image_always_writes_crop args0 ocr_blank
    ⟨"IMG.jpeg".data, [], some ⟨100, 200⟩⟩ ⟨100, 200⟩ rfl (Or.inr (by decide)) (by decide)
  exact ⟨h.1, h.2 (by decide)⟩

end CamTrap
